import Mathlib

/-!
Verification of the Wayfinder order/ingest backend.

Shallow embedding of the Go sources: the order saga engine
(`internal/orders/order.go`), the reliability primitives (retry policy,
circuit breaker, token-bucket rate limiter), the location ingest pipeline
(`internal/ingest`), the gRPC adapter, and the Postgres payment client.

Go `error` values are modelled by `GoErr`; a `nil` error is `Option.none`.
-/

/-- Model of a Go `error` value.
`base msg` is a sentinel created by `errors.New(msg)` (identity is modelled
by the message, which is unique per sentinel in this codebase);
`wrap pre cause post` is `fmt.Errorf(pre + "%w" + post, cause)` — one wrapped
cause plus surrounding text.  The `errors.Join` composite built by the
multi-store is modelled separately by the list of its member errors. -/
inductive GoErr where
  | base : String → GoErr
  | wrap : String → GoErr → String → GoErr
deriving DecidableEq, Repr

/-- Model of Go `errors.Is(e, target)` where `target` is a sentinel created by
`errors.New`: true when the sentinel (identified by its message) occurs in the
unwrap chain of `e`.  `wrap` unwraps to its single cause. -/
def goErrIs : GoErr → String → Bool
  | .base m, s => m = s
  | .wrap _ c _, s => goErrIs c s

/-- Model of the Go `Error()` string of an error value. -/
def goErrMsg : GoErr → String
  | .base m => m
  | .wrap p c s => p ++ goErrMsg c ++ s

/-- Model of Go `errors.Is(e, target)` for `e` the value `errors.Join(errs...)`
with the given non-empty member list: `errors.Is` recurses into every joined
member. -/
def goJoinIs (errs : List GoErr) (s : String) : Bool :=
  errs.any fun e => goErrIs e s

/-- `ErrCircuitOpen` from the reliability code. -/
def errCircuitOpen : GoErr := .base "circuit breaker open"

/-- Go `context.Canceled`. -/
def ctxCanceled : GoErr := .base "context canceled"

/-- Go `context.DeadlineExceeded`. -/
def ctxDeadlineExceeded : GoErr := .base "context deadline exceeded"

/-! ## Saga data model (`internal/orders/saga`, src/unnamed/part_004) -/

/-- `saga.SagaStatus`. -/
inductive SagaStatus where
  | started
  | succeeded
  | failed
  | refunded
deriving DecidableEq, Repr

/-- The string value backing each `saga.SagaStatus` constant. -/
def SagaStatus.str : SagaStatus → String
  | .started => "started"
  | .succeeded => "succeeded"
  | .failed => "failed"
  | .refunded => "refunded"

/-- `saga.SagaRecord` (amount as an exact rational stand-in for float64;
only equality of the value matters to the engine). -/
structure SagaRecord where
  orderID : String
  userID : String
  amount : ℚ
  status : SagaStatus
deriving DecidableEq, Repr

/-! ## Order saga engine (`internal/orders/order.go`, `CreateOrder`) -/

/-- One observable action of `CreateOrder`: an outbound side effect on the
payment or courier client, a saga step-log append, or a terminal status
update. -/
inductive OrderEvent where
  | charge
  | assign
  | refund
  | addStep (step status detail : String)
  | updateStatus (st : SagaStatus)
deriving DecidableEq, Repr

/-- Responses of the collaborators consulted by one `CreateOrder` run:
the saga store `Start` result and the outcomes of `Charge`, `Assign`,
`Refund` (`none` = success). -/
structure OrderEnv where
  startRes : Except GoErr (SagaRecord × Bool)
  chargeRes : Option GoErr
  assignRes : Option GoErr
  refundRes : Option GoErr
deriving Repr

/-- Result of a `CreateOrder` run: returned order id, returned error, and
the trace of observable actions in program order. -/
structure OrderOutcome where
  orderID : String
  err : Option GoErr
  trace : List OrderEvent
deriving DecidableEq, Repr

/-- `ErrIdempotencyKeyRequired`. -/
def errIdempotencyKeyRequired : GoErr := .base "idempotency key required"

/-- The `AlreadyProcessed(status)` error built at order.go line 81. -/
def alreadyProcessedErr (st : SagaStatus) : GoErr :=
  .base ("order already processed with status " ++ st.str)

/-- The composite error of order.go line 100:
`fmt.Errorf("driver assignment failed: %w; refund failed: %v", err, refundErr)`.
Only the assign error is wrapped (`%w`); the refund error contributes text
only (`%v`). -/
def compositeAssignRefundErr (assignErr refundErr : GoErr) : GoErr :=
  .wrap "driver assignment failed: " assignErr ("; refund failed: " ++ goErrMsg refundErr)

/-- Shallow embedding of `OrderService.CreateOrder` (order.go lines 62-110).
`orderID`/`driverID` stand for the values produced by the injected
generators. -/
def createOrder (env : OrderEnv) (orderID driverID userID : String) (amount : ℚ)
    (idempotencyKey : String) : OrderOutcome :=
  if idempotencyKey = "" then
    ⟨"", some errIdempotencyKeyRequired, []⟩
  else
    match env.startRes with
    | .error e => ⟨"", some e, []⟩
    | .ok (record, created) =>
      if created = false then
        if record.status = .succeeded then
          ⟨record.orderID, none, []⟩
        else
          ⟨record.orderID, some (alreadyProcessedErr record.status), []⟩
      else
        match env.chargeRes with
        | some e =>
          ⟨"", some e,
            [.addStep "charge" "started" "", .charge,
             .addStep "charge" "failed" (goErrMsg e), .updateStatus .failed]⟩
        | none =>
          match env.assignRes with
          | some e =>
            match env.refundRes with
            | some re =>
              ⟨"", some (compositeAssignRefundErr e re),
                [.addStep "charge" "started" "", .charge,
                 .addStep "charge" "succeeded" "",
                 .addStep "assign" "started" "", .assign,
                 .addStep "assign" "failed" (goErrMsg e),
                 .addStep "refund" "started" "", .refund,
                 .addStep "refund" "failed" (goErrMsg re),
                 .updateStatus .failed]⟩
            | none =>
              ⟨"", some e,
                [.addStep "charge" "started" "", .charge,
                 .addStep "charge" "succeeded" "",
                 .addStep "assign" "started" "", .assign,
                 .addStep "assign" "failed" (goErrMsg e),
                 .addStep "refund" "started" "", .refund,
                 .addStep "refund" "succeeded" "",
                 .updateStatus .refunded]⟩
          | none =>
            ⟨orderID, none,
              [.addStep "charge" "started" "", .charge,
               .addStep "charge" "succeeded" "",
               .addStep "assign" "started" "", .assign,
               .addStep "assign" "succeeded" "",
               .updateStatus .succeeded]⟩

/-- Whether an event is an outbound side effect (payment or courier client
invocation), as opposed to a step-log or status write. -/
def OrderEvent.isSideEffect : OrderEvent → Bool
  | .charge => true
  | .assign => true
  | .refund => true
  | _ => false

/-- The subsequence of outbound side effects of a trace. -/
def sideEffects (t : List OrderEvent) : List OrderEvent :=
  t.filter OrderEvent.isSideEffect

/-- The step names of the step-log appends of a trace, in append order. -/
def stepNames (t : List OrderEvent) : List String :=
  t.filterMap fun e =>
    match e with
    | .addStep s _ _ => some s
    | _ => none

/-- Collapse consecutive duplicates of a list. -/
def collapseDups : List String → List String
  | [] => []
  | [a] => [a]
  | a :: b :: rest =>
    if a = b then collapseDups (a :: rest) else a :: collapseDups (b :: rest)

/-! ## Retry policy (src/unnamed/part_003, `RetryPolicy.Do`, lines 166-230) -/

/-- Two to the 63rd: the signed-64-bit bound of Go `time.Duration`. -/
def int64Half : Int := 2 ^ 63

/-- Wrap an integer into the signed 64-bit range, as Go arithmetic does. -/
def wrap64 (x : Int) : Int := (x + int64Half) % (2 * int64Half) - int64Half

/-- Go `d << n` on `time.Duration` (signed 64-bit left shift). -/
def goShl (d : Int) (n : Nat) : Int := wrap64 (d * 2 ^ n)

/-- `RetryPolicy` (part_003 lines 167-174).  Durations are `Int` nanoseconds
and `maxAttempts` a Go `int`; `Option` fields model `nil` Go function fields.
`jitter` is a pure function of the delay; `sleep` is modelled by the outcome
it would produce at a given attempt for a given delay. -/
structure RetryPolicy where
  maxAttempts : Int
  baseDelay : Int
  maxDelay : Int
  jitter : Option (Int → Int)
  sleep : Option (Nat → Int → Option GoErr)
  shouldRetry : Option (GoErr → Bool)

/-- Environment of one `RetryPolicy.Do` run: `ctxErr k` is `ctx.Err()` as
observed at the top of attempt `k`; `fn k` is the wrapped operation's result
on attempt `k`; `defaultSleep` is the outcome `sleepWithContext` would
produce; `rand k` is the `rand.Int63n(half+1)` draw the default jitter makes
on attempt `k`. -/
structure RetryEnv where
  ctxErr : Nat → Option GoErr
  fn : Nat → Option GoErr
  defaultSleep : Nat → Int → Option GoErr
  rand : Nat → Int

/-- `defaultJitter` (part_003 lines 518-524) with the random draw `r` made
explicit: `0` for a nonpositive delay, otherwise `d/2 + r` with
`r ∈ [0, d/2]`. -/
def defaultJitterAt (r : Int) (d : Int) : Int :=
  if d ≤ 0 then 0 else d / 2 + r

/-- The default `ShouldRetry` (part_003 lines 191-197): retry unless the
error is `context.Canceled`, `context.DeadlineExceeded` or `ErrCircuitOpen`. -/
def defaultShouldRetry (e : GoErr) : Bool :=
  !(goErrIs e "context canceled" || goErrIs e "context deadline exceeded" ||
    goErrIs e "circuit breaker open")

/-- The policy after the defaulting prelude of `Do` (part_003 lines 182-201):
attempt budget clamped to at least 1, and `nil` function fields replaced by
the defaults. -/
structure RetryResolved where
  attempts : Nat
  baseDelay : Int
  maxDelay : Int
  jitter : Nat → Int → Int
  sleep : Nat → Int → Option GoErr
  shouldRetry : GoErr → Bool

/-- The defaulting prelude of `RetryPolicy.Do` (part_003 lines 182-201). -/
def resolveRetry (p : RetryPolicy) (env : RetryEnv) : RetryResolved where
  attempts := (if p.maxAttempts < 1 then 1 else p.maxAttempts).toNat
  baseDelay := p.baseDelay
  maxDelay := p.maxDelay
  jitter :=
    match p.jitter with
    | some j => fun _ d => j d
    | none => fun k d => defaultJitterAt (env.rand k) d
  sleep := p.sleep.getD env.defaultSleep
  shouldRetry := p.shouldRetry.getD defaultShouldRetry

/-- The backoff delay `Do` computes before the retry that follows a failed
`attempt` (part_003 lines 215-222): shift `baseDelay` left when positive, cap
by a positive `maxDelay`, then apply jitter. -/
def retryDelayAt (r : RetryResolved) (attempt : Nat) : Int :=
  let delay0 := if 0 < r.baseDelay then goShl r.baseDelay (attempt - 1) else r.baseDelay
  let delay1 := if 0 < r.maxDelay && r.maxDelay < delay0 then r.maxDelay else delay0
  r.jitter attempt delay1

/-- Observable result of a `Do` run: returned error (`none` = nil), number of
calls made to the wrapped operation, and the computed backoff delays in
order. -/
structure RetryResult where
  res : Option GoErr
  calls : Nat
  delays : List Int
deriving DecidableEq, Repr

/-- The attempt loop of `RetryPolicy.Do` (part_003 lines 203-229).  The first
argument is the remaining attempt budget including the current attempt
(`fuel = attempts - attempt + 1`), so `fuel = 1` exactly when
`attempt == attempts`; the fall-through `fuel = 0` mirrors the final
`return nil` of line 229. -/
def retryLoop (r : RetryResolved) (env : RetryEnv) : Nat → Nat → RetryResult
  | 0, _ => ⟨none, 0, []⟩
  | fuel + 1, attempt =>
    match env.ctxErr attempt with
    | some e => ⟨some e, 0, []⟩
    | none =>
      match env.fn attempt with
      | none => ⟨none, 1, []⟩
      | some e =>
        if fuel = 0 || !r.shouldRetry e then ⟨some e, 1, []⟩
        else
          let d := retryDelayAt r attempt
          if 0 < d then
            match r.sleep attempt d with
            | some e2 => ⟨some e2, 1, [d]⟩
            | none =>
              let rest := retryLoop r env fuel (attempt + 1)
              ⟨rest.res, rest.calls + 1, d :: rest.delays⟩
          else
            let rest := retryLoop r env fuel (attempt + 1)
            ⟨rest.res, rest.calls + 1, d :: rest.delays⟩

/-- `RetryPolicy.Do` (part_003 lines 177-230). -/
def retryDo (p : RetryPolicy) (env : RetryEnv) : RetryResult :=
  retryLoop (resolveRetry p env) env (resolveRetry p env).attempts 1

/-! ## Circuit breaker (src/unnamed/part_003, lines 232-337) -/

/-- `circuitState` constants (part_003 lines 239-245). -/
inductive CircuitState where
  | circuitClosed
  | circuitOpen
  | circuitHalfOpen
deriving DecidableEq, Repr

/-- The breaker parameters after `NewCircuitBreaker`; times are `Int`
nanoseconds. -/
structure CircuitBreakerConfig where
  maxFails : Int
  resetAfter : Int
deriving DecidableEq, Repr

/-- The mutable breaker fields (part_003 lines 254-257). -/
structure CircuitBreakerState where
  state : CircuitState
  failures : Int
  openedAt : Int
  halfOpenFlight : Bool
deriving DecidableEq, Repr

/-- `NewCircuitBreaker` (part_003 lines 261-280): clamps `MaxFailures` to at
least 1, defaults a nonpositive `ResetTimeout` to 2 seconds, and starts
closed (`openedAt` is the zero time, modelled as 0). -/
def newCircuitBreaker (maxFailures resetTimeout : Int) :
    CircuitBreakerConfig × CircuitBreakerState :=
  (⟨if maxFailures < 1 then 1 else maxFailures,
    if resetTimeout ≤ 0 then 2000000000 else resetTimeout⟩,
   ⟨.circuitClosed, 0, 0, false⟩)

/-- The first mutex section of `Execute` (part_003 lines 288-307): decides
admission at entry time `now` and returns the updated state; `false` means
the caller gets `ErrCircuitOpen` without the wrapped call running. -/
def cbEnter (cfg : CircuitBreakerConfig) (s : CircuitBreakerState) (now : Int) :
    CircuitBreakerState × Bool :=
  match s.state with
  | .circuitOpen =>
    if now - s.openedAt < cfg.resetAfter then (s, false)
    else ({ s with state := .circuitHalfOpen, halfOpenFlight := true }, true)
  | .circuitHalfOpen =>
    if s.halfOpenFlight then (s, false)
    else ({ s with halfOpenFlight := true }, true)
  | .circuitClosed => (s, true)

/-- The second mutex section of `Execute` (part_003 lines 311-336), recording
the wrapped call's result; `now` is the time captured at entry. -/
def cbExit (cfg : CircuitBreakerConfig) (s : CircuitBreakerState) (now : Int)
    (err : Option GoErr) : CircuitBreakerState :=
  let s1 := if s.state = .circuitHalfOpen then { s with halfOpenFlight := false } else s
  match err with
  | none => { s1 with state := .circuitClosed, failures := 0 }
  | some _ =>
    if s1.state = .circuitHalfOpen then
      { s1 with state := .circuitOpen, openedAt := now, failures := 0 }
    else
      if cfg.maxFails ≤ s1.failures + 1 then
        { s1 with failures := s1.failures + 1, state := .circuitOpen, openedAt := now }
      else
        { s1 with failures := s1.failures + 1 }

/-- One uninterleaved `Execute` call: entry, then (when admitted) the wrapped
call producing `fnErr`, then exit.  Returns the new state, whether the
wrapped operation was invoked, and the returned error. -/
def cbExecute (cfg : CircuitBreakerConfig) (s : CircuitBreakerState) (now : Int)
    (fnErr : Option GoErr) : CircuitBreakerState × Bool × Option GoErr :=
  let (s1, admitted) := cbEnter cfg s now
  if admitted then (cbExit cfg s1 now fnErr, true, fnErr)
  else (s1, false, some errCircuitOpen)

/-- A sequence of failing `Execute` calls, each given by its entry time and
the error the wrapped operation returns. -/
def cbRunFails (cfg : CircuitBreakerConfig) (s : CircuitBreakerState)
    (l : List (Int × GoErr)) : CircuitBreakerState :=
  l.foldl (fun st p => (cbExecute cfg st p.1 (some p.2)).1) s

/-! ## Location ingest (`internal/ingest/location.go`, `multi_store.go`) and
the gRPC adapter (`internal/adapters/grpc/server.go`) -/

/-- `ingest.Location` (location.go lines 8-13); coordinates as exact
rationals standing in for float64 (only order comparisons occur), the
timestamp as an `Int` instant whose zero value is Go's zero `time.Time`. -/
structure Location where
  driverID : String
  lat : ℚ
  long : ℚ
  timestamp : Int
deriving DecidableEq, Repr

/-- The validation error kinds of location.go lines 37-41. -/
inductive LocationErr where
  | invalidDriverID
  | invalidLatitude
  | invalidLongitude
deriving DecidableEq, Repr

/-- The Go error strings of `ErrInvalidDriverID`, `ErrInvalidLatitude`,
`ErrInvalidLongitude`. -/
def LocationErr.msg : LocationErr → String
  | .invalidDriverID => "driver id is required"
  | .invalidLatitude => "latitude must be between -90 and 90"
  | .invalidLongitude => "longitude must be between -180 and 180"

/-- `ingest.NewLocation` (location.go lines 16-35). -/
def NewLocation (driverID : String) (lat long : ℚ) (timestamp : Int) :
    Except LocationErr Location :=
  if driverID = "" then .error .invalidDriverID
  else if lat < -90 ∨ lat > 90 then .error .invalidLatitude
  else if long < -180 ∨ long > 180 then .error .invalidLongitude
  else .ok ⟨driverID, lat, long, timestamp⟩

/-- One configured sub-store of the multi-store, modelled by the outcome its
`Update` returns for a given location. -/
def LocationStore := Location → Option GoErr

/-- The loop of `MultiLocationStore.Update` (multi_store.go lines 20-26):
walks the stores in order, recording the index of every store invoked and
collecting the non-nil errors in order. -/
def multiUpdateRun (stores : List LocationStore) (loc : Location) (idx : Nat) :
    List Nat × List GoErr :=
  match stores with
  | [] => ([], [])
  | st :: rest =>
    let r := multiUpdateRun rest loc (idx + 1)
    match st loc with
    | some e => (idx :: r.1, e :: r.2)
    | none => (idx :: r.1, r.2)

/-- Go `errors.Join(errs...)`: `nil` when there is no error, otherwise the
composite holding every member. -/
def errorsJoin (errs : List GoErr) : Option (List GoErr) :=
  if errs = [] then none else some errs

/-- `MultiLocationStore.Update` (multi_store.go lines 19-27): the invoked
store indices and the joined error. -/
def multiUpdate (stores : List LocationStore) (loc : Location) :
    List Nat × Option (List GoErr) :=
  ((multiUpdateRun stores loc 0).1, errorsJoin (multiUpdateRun stores loc 0).2)

/-- A protobuf timestamp attached to a streamed location message: its
converted instant and the result of `IsValid()` (an external library range
check). -/
structure PbTimestamp where
  t : Int
  valid : Bool
deriving DecidableEq, Repr

/-- A streamed `driverpb.Location` message (timestamp optional). -/
structure LocationMsg where
  driverId : String
  latitude : ℚ
  longitude : ℚ
  timestamp : Option PbTimestamp
deriving DecidableEq, Repr

/-- gRPC status codes produced by `Server.UpdateLocation`. -/
inductive GrpcCode where
  | invalidArgument
  | internal
deriving DecidableEq, Repr

/-- The distinct error productions of the per-message body of
`Server.UpdateLocation` (server.go lines 44-60). -/
inductive GrpcError where
  | invalidTimestamp
  | invalidLocation (e : LocationErr)
  | ingestFailed (e : GoErr)
deriving DecidableEq, Repr

/-- The status code each adapter error carries. -/
def GrpcError.code : GrpcError → GrpcCode
  | .invalidTimestamp => .invalidArgument
  | .invalidLocation _ => .invalidArgument
  | .ingestFailed _ => .internal

/-- The status message each adapter error carries. -/
def GrpcError.msg : GrpcError → String
  | .invalidTimestamp => "invalid timestamp"
  | .invalidLocation e => "invalid location: " ++ e.msg
  | .ingestFailed e => "ingest: " ++ goErrMsg e

/-- The per-message body of `Server.UpdateLocation` (server.go lines 44-60):
an absent protobuf timestamp falls back to the zero time; a present but
invalid one is rejected with InvalidArgument before validation; then
`NewLocation` validates and the location is forwarded to the ingest service
(whose outcome is `ingestRes`). -/
def handleLocationMsg (msg : LocationMsg) (ingestRes : Location → Option GoErr) :
    Except GrpcError Location :=
  match msg.timestamp with
  | some pb =>
    if pb.valid = false then .error .invalidTimestamp
    else
      match NewLocation msg.driverId msg.latitude msg.longitude pb.t with
      | .error e => .error (.invalidLocation e)
      | .ok loc =>
        match ingestRes loc with
        | some e => .error (.ingestFailed e)
        | none => .ok loc
  | none =>
    match NewLocation msg.driverId msg.latitude msg.longitude 0 with
    | .error e => .error (.invalidLocation e)
    | .ok loc =>
      match ingestRes loc with
      | some e => .error (.ingestFailed e)
      | none => .ok loc

/-! ## Postgres payment client (src/internal/db/orders/driver_store_test.go,
second document: `PostgresPaymentClient`) -/

/-- A row of the `payments` table (`InitSchema`, lines 107-118):
`order_id TEXT PRIMARY KEY, amount, charged_at default NOW(),
refunded_at NULL, refund_amount NULL`. -/
structure PaymentRow where
  amount : ℚ
  chargedAt : Int
  refundedAt : Option Int
  refundAmount : Option ℚ
deriving DecidableEq, Repr

/-- The `payments` table, keyed by the primary key `order_id`. -/
def PaymentsTable := String → Option PaymentRow

/-- `ErrAlreadyCharged` (line 121). -/
def errAlreadyCharged : GoErr := .base "order already charged"

/-- `ErrNotCharged` (line 124). -/
def errNotCharged : GoErr := .base "order not charged"

/-- `ErrAlreadyRefunded` (line 127). -/
def errAlreadyRefunded : GoErr := .base "order already refunded"

/-- `PostgresPaymentClient.Charge` (lines 129-148):
`INSERT INTO payments (order_id, amount) VALUES ($1, $2)
ON CONFLICT (order_id) DO NOTHING`; zero affected rows yields
`ErrAlreadyCharged`.  `now` models the `charged_at` default `NOW()`. -/
def pgCharge (db : PaymentsTable) (orderID : String) (amount : ℚ) (now : Int) :
    PaymentsTable × Option GoErr :=
  if orderID = "" then (db, some (.base "order id required"))
  else
    match db orderID with
    | some _ => (db, some errAlreadyCharged)
    | none =>
      (fun id => if id = orderID then some ⟨amount, now, none, none⟩ else db id, none)

/-- `PostgresPaymentClient.Refund` (lines 150-181):
`UPDATE payments SET refund_amount = $2, refunded_at = NOW()
WHERE order_id = $1 AND refunded_at IS NULL`; when no row is affected, a
follow-up `SELECT refunded_at IS NOT NULL` distinguishes already-refunded
from not-charged. -/
def pgRefund (db : PaymentsTable) (orderID : String) (amount : ℚ) (now : Int) :
    PaymentsTable × Option GoErr :=
  if orderID = "" then (db, some (.base "order id required"))
  else
    match db orderID with
    | some row =>
      match row.refundedAt with
      | none =>
        (fun id =>
          if id = orderID then
            some { row with refundAmount := some amount, refundedAt := some now }
          else db id,
         none)
      | some _ => (db, some errAlreadyRefunded)
    | none => (db, some errNotCharged)

/-! ## Token-bucket rate limiters: `RateLimiter.Wait` (src/unnamed/part_003,
lines 339-418) and `grpcRateLimiter.Wait` (src/unnamed/part_029, lines
19-99), with the wired metrics callback (part_017 lines 92-100, part_024
line 138) -/

/-- The mutable token-bucket fields (`tokens`, `last`). -/
structure RLState where
  tokens : Int
  last : Int
deriving DecidableEq, Repr

/-- Environment of one `Wait` call: `nowAt i` is the clock reading of loop
iteration `i`, `ctxErrAt i` is `ctx.Err()` observed there (a nil context is
a never-cancelled `ctxErrAt`), and `sleepAt i w` is the outcome sleeping for
`w` at iteration `i` would produce. -/
structure RLEnv where
  nowAt : Nat → Int
  ctxErrAt : Nat → Option GoErr
  sleepAt : Nat → Int → Option GoErr

/-- `refill` — textually identical in part_003 lines 399-418 and part_029
lines 80-99. -/
def rlRefill (rate burst : Int) (st : RLState) (now : Int) : RLState :=
  if rate ≤ 0 then ⟨burst, now⟩
  else
    let elapsed := now - st.last
    if elapsed < rate then st
    else
      let add := elapsed / rate
      if add ≤ 0 then st
      else
        let tokens := st.tokens + add
        ⟨if burst < tokens then burst else tokens, st.last + add * rate⟩

/-- The wait loop of `RateLimiter.Wait` (part_003 lines 376-396), run with a
fuel bound on the number of iterations; `none` in the first component means
the bound was reached while still looping. -/
def rlWaitLoop (rate burst : Int) (env : RLEnv) : Nat → RLState → Nat →
    Option (Option GoErr) × RLState
  | 0, st, _ => (none, st)
  | fuel + 1, st, i =>
    match env.ctxErrAt i with
    | some e => (some (some e), st)
    | none =>
      let now := env.nowAt i
      let st1 := rlRefill rate burst st now
      if 0 < st1.tokens then (some none, ⟨st1.tokens - 1, st1.last⟩)
      else
        let wait := rate - (now - st1.last)
        if wait ≤ 0 then rlWaitLoop rate burst env fuel st1 (i + 1)
        else
          match env.sleepAt i wait with
          | some e => (some (some e), st1)
          | none => rlWaitLoop rate burst env fuel st1 (i + 1)

/-- `RateLimiter.Wait` (part_003 lines 365-397): a degenerate configuration
(`rate ≤ 0` or `burst ≤ 0`) returns `ctx.Err()` immediately. -/
def rateLimiterWait (rate burst : Int) (env : RLEnv) (st : RLState) (fuel : Nat) :
    Option (Option GoErr) × RLState :=
  if rate ≤ 0 ∨ burst ≤ 0 then (some (env.ctxErrAt 0), st)
  else rlWaitLoop rate burst env fuel st 0

/-- The wait loop of `grpcRateLimiter.Wait` (part_029 lines 54-77): the same
loop, except that `onWait(wait)` is invoked before each sleep; the third
component records those calls in order. -/
def grpcWaitLoop (rate burst : Int) (env : RLEnv) : Nat → RLState → Nat →
    Option (Option GoErr) × RLState × List Int
  | 0, st, _ => (none, st, [])
  | fuel + 1, st, i =>
    match env.ctxErrAt i with
    | some e => (some (some e), st, [])
    | none =>
      let now := env.nowAt i
      let st1 := rlRefill rate burst st now
      if 0 < st1.tokens then (some none, ⟨st1.tokens - 1, st1.last⟩, [])
      else
        let wait := rate - (now - st1.last)
        if wait ≤ 0 then grpcWaitLoop rate burst env fuel st1 (i + 1)
        else
          match env.sleepAt i wait with
          | some e => (some (some e), st1, [wait])
          | none =>
            let r := grpcWaitLoop rate burst env fuel st1 (i + 1)
            (r.1, r.2.1, wait :: r.2.2)

/-- `grpcRateLimiter.Wait` (part_029 lines 46-78): a degenerate
configuration returns nil unconditionally, without consulting the
context. -/
def grpcLimiterWait (rate burst : Int) (env : RLEnv) (st : RLState) (fuel : Nat) :
    Option (Option GoErr) × RLState × List Int :=
  if rate ≤ 0 ∨ burst ≤ 0 then (some none, st, [])
  else grpcWaitLoop rate burst env fuel st 0

/-- The ingress rate-limit counters of the metrics registry (part_017 lines
41-42): number of waits and total waited duration. -/
structure RateMetrics where
  rateLimitWaits : Int
  rateLimitWait : Int
deriving DecidableEq, Repr

/-- `Metrics.AddRateLimitWait` (part_017 lines 92-100): nonpositive
durations are ignored.  part_024 line 138 wires this as the ingress
limiter's `onWait`. -/
def addRateLimitWait (m : RateMetrics) (d : Int) : RateMetrics :=
  if d ≤ 0 then m else ⟨m.rateLimitWaits + 1, m.rateLimitWait + d⟩

/-! ## Theorems -/

/-- The attempt budget after clamping is at least 1. -/
theorem resolveRetry_attempts_pos (p : RetryPolicy) (env : RetryEnv) :
    1 ≤ (resolveRetry p env).attempts := by
  simp only [resolveRetry]
  split <;> omega

/-- Invariants of the `Do` attempt loop when the context is never cancelled:
call count between 1 and the budget, at most budget - 1 recorded delays, and
the i-th recorded delay is the backoff computed for attempt `attempt + i`. -/
theorem retryLoop_spec (r : RetryResolved) (env : RetryEnv)
    (hctx : ∀ k, env.ctxErr k = none) :
    ∀ fuel attempt,
      (retryLoop r env fuel attempt).calls ≤ fuel
      ∧ (retryLoop r env fuel attempt).delays.length ≤ fuel - 1
      ∧ (1 ≤ fuel → 1 ≤ (retryLoop r env fuel attempt).calls)
      ∧ ∀ i, i < (retryLoop r env fuel attempt).delays.length →
          (retryLoop r env fuel attempt).delays[i]? = some (retryDelayAt r (attempt + i)) := by
  intro fuel
  induction fuel with
  | zero => intro attempt; simp [retryLoop]
  | succ fuel ih =>
    intro attempt
    have hc := hctx attempt
    cases hfn : env.fn attempt with
    | none => simp [retryLoop, hc, hfn]
    | some e =>
      by_cases hlast : (fuel = 0 || !r.shouldRetry e) = true
      · simp [retryLoop, hc, hfn, hlast]
      · have hfuel : ¬fuel = 0 := by
          intro h0
          simp [h0] at hlast
        by_cases hd : 0 < retryDelayAt r attempt
        · cases hs : r.sleep attempt (retryDelayAt r attempt) with
          | some e2 =>
            have hcalls : (retryLoop r env (fuel + 1) attempt).calls = 1 := by
              simp [retryLoop, hc, hfn, hlast, hd, hs]
            have hdel : (retryLoop r env (fuel + 1) attempt).delays =
                [retryDelayAt r attempt] := by
              simp [retryLoop, hc, hfn, hlast, hd, hs]
            refine ⟨by omega, by rw [hdel]; simp; omega, fun _ => by omega, ?_⟩
            intro i hi
            rw [hdel] at hi ⊢
            simp at hi
            subst hi
            simp
          | none =>
            obtain ⟨ih1, ih2, ih3, ih4⟩ := ih (attempt + 1)
            have hcalls : (retryLoop r env (fuel + 1) attempt).calls =
                (retryLoop r env fuel (attempt + 1)).calls + 1 := by
              simp [retryLoop, hc, hfn, hlast, hd, hs]
            have hdel : (retryLoop r env (fuel + 1) attempt).delays =
                retryDelayAt r attempt :: (retryLoop r env fuel (attempt + 1)).delays := by
              simp [retryLoop, hc, hfn, hlast, hd, hs]
            refine ⟨by omega, ?_, fun _ => by omega, ?_⟩
            · rw [hdel]
              simp only [List.length_cons]
              omega
            · intro i hi
              rw [hdel] at hi ⊢
              cases i with
              | zero => simp
              | succ j =>
                simp only [List.getElem?_cons_succ]
                simp only [List.length_cons] at hi
                have hj : j < (retryLoop r env fuel (attempt + 1)).delays.length := by omega
                rw [ih4 j hj]
                congr 2
                omega
        · obtain ⟨ih1, ih2, ih3, ih4⟩ := ih (attempt + 1)
          have hcalls : (retryLoop r env (fuel + 1) attempt).calls =
              (retryLoop r env fuel (attempt + 1)).calls + 1 := by
            simp [retryLoop, hc, hfn, hlast, hd]
          have hdel : (retryLoop r env (fuel + 1) attempt).delays =
              retryDelayAt r attempt :: (retryLoop r env fuel (attempt + 1)).delays := by
            simp [retryLoop, hc, hfn, hlast, hd]
          refine ⟨by omega, ?_, fun _ => by omega, ?_⟩
          · rw [hdel]
            simp only [List.length_cons]
            omega
          · intro i hi
            rw [hdel] at hi ⊢
            cases i with
            | zero => simp
            | succ j =>
              simp only [List.getElem?_cons_succ]
              simp only [List.length_cons] at hi
              have hj : j < (retryLoop r env fuel (attempt + 1)).delays.length := by omega
              rw [ih4 j hj]
              congr 2
              omega

/-- For attempts within the no-overflow range, the computed backoff is the
jittered capped exponential of the spec. -/
theorem retryDelayAt_formula (r : RetryResolved) (attempt : Nat)
    (hbase : 0 ≤ r.baseDelay) (hmax : 0 < r.maxDelay)
    (hov : r.baseDelay * 2 ^ (attempt - 1) < int64Half) :
    retryDelayAt r attempt =
      r.jitter attempt (min r.maxDelay (r.baseDelay * 2 ^ (attempt - 1))) := by
  unfold retryDelayAt
  by_cases hb : 0 < r.baseDelay
  · have hpow : (0 : Int) ≤ r.baseDelay * 2 ^ (attempt - 1) := by positivity
    have hsh : goShl r.baseDelay (attempt - 1) = r.baseDelay * 2 ^ (attempt - 1) := by
      unfold goShl wrap64
      have hlo : (0 : Int) ≤ r.baseDelay * 2 ^ (attempt - 1) + int64Half := by
        have : (0 : Int) ≤ int64Half := by norm_num [int64Half]
        omega
      have hhi : r.baseDelay * 2 ^ (attempt - 1) + int64Half < 2 * int64Half := by omega
      rw [Int.emod_eq_of_lt hlo hhi]
      ring
    rcases le_or_lt (r.baseDelay * 2 ^ (attempt - 1)) r.maxDelay with hle | hgt
    · rw [min_eq_right hle]
      have hnc : ¬(r.maxDelay < r.baseDelay * 2 ^ (attempt - 1)) := not_lt.mpr hle
      simp [hb, hsh, hnc]
    · rw [min_eq_left (le_of_lt hgt)]
      simp [hb, hsh, hmax, hgt]
  · have hb0 : r.baseDelay = 0 := le_antisymm (not_lt.mp hb) hbase
    have hmin : min r.maxDelay (0 : Int) = 0 := min_eq_right (le_of_lt hmax)
    simp [hb, hb0, hmin, not_lt.mpr (le_of_lt hmax)]

/-- C1: in every `CreateOrder` run the outbound side effects form a prefix of
[Charge, Assign, Refund]; Assign is invoked only when Charge returned success;
Refund is invoked only when Charge returned success and Assign returned an
error; and the step-log appends follow that same charge/assign/refund order. -/
theorem createOrder_effect_order (env : OrderEnv)
    (orderID driverID userID key : String) (amount : ℚ) :
    sideEffects (createOrder env orderID driverID userID amount key).trace <+:
        [OrderEvent.charge, OrderEvent.assign, OrderEvent.refund]
    ∧ (OrderEvent.assign ∈ (createOrder env orderID driverID userID amount key).trace →
        env.chargeRes = none)
    ∧ (OrderEvent.refund ∈ (createOrder env orderID driverID userID amount key).trace →
        env.chargeRes = none ∧ env.assignRes ≠ none)
    ∧ collapseDups (stepNames (createOrder env orderID driverID userID amount key).trace) <+:
        ["charge", "assign", "refund"] := by
  obtain ⟨startRes, chargeRes, assignRes, refundRes⟩ := env
  by_cases hk : key = ""
  · simp [createOrder, hk, sideEffects, stepNames, collapseDups]
  · rcases startRes with e | ⟨record, created⟩
    · simp [createOrder, hk, sideEffects, stepNames, collapseDups]
    · cases created
      · by_cases hs : record.status = SagaStatus.succeeded <;>
          simp [createOrder, hk, hs, sideEffects, stepNames, collapseDups]
      · rcases chargeRes with _ | ce
        · rcases assignRes with _ | ae
          · refine ⟨⟨[OrderEvent.refund], ?_⟩, ?_, ?_, ⟨["refund"], ?_⟩⟩ <;>
              simp [createOrder, hk, sideEffects, OrderEvent.isSideEffect, stepNames,
                collapseDups]
          · rcases refundRes with _ | re <;>
              refine ⟨⟨[], ?_⟩, ?_, ?_, ⟨[], ?_⟩⟩ <;>
              simp [createOrder, hk, sideEffects, OrderEvent.isSideEffect, stepNames,
                collapseDups]
        · refine ⟨⟨[OrderEvent.assign, OrderEvent.refund], ?_⟩, ?_, ?_,
            ⟨["assign", "refund"], ?_⟩⟩ <;>
            simp [createOrder, hk, sideEffects, OrderEvent.isSideEffect, stepNames,
              collapseDups]

/-- C1 witness: a concrete run (assign fails, refund succeeds) in which the
refund side effect occurs, so Charge succeeded and Assign errored. -/
theorem createOrder_effect_order_witness :
    (⟨.ok (⟨"o1", "u1", 10, .started⟩, true), none, some (.base "assign boom"), none⟩ :
        OrderEnv).chargeRes = none
    ∧ (⟨.ok (⟨"o1", "u1", 10, .started⟩, true), none, some (.base "assign boom"), none⟩ :
        OrderEnv).assignRes ≠ none :=
  (createOrder_effect_order
      ⟨.ok (⟨"o1", "u1", 10, .started⟩, true), none, some (.base "assign boom"), none⟩
      "o1" "d1" "u1" "k2" 10).2.2.1 (by simp [createOrder])

/-- C2: when `Start` reports an existing record (`created = false`), a
`Succeeded` record is replayed (its order id returned with no error and an
empty action trace), and any other status yields the
already-processed(status) error, also with an empty action trace. -/
theorem createOrder_replay_existing (env : OrderEnv) (record : SagaRecord)
    (orderID driverID userID key : String) (amount : ℚ)
    (hstart : env.startRes = .ok (record, false)) (hk : key ≠ "") :
    (record.status = SagaStatus.succeeded →
      createOrder env orderID driverID userID amount key =
        ⟨record.orderID, none, []⟩)
    ∧ (record.status ≠ SagaStatus.succeeded →
      createOrder env orderID driverID userID amount key =
        ⟨record.orderID, some (alreadyProcessedErr record.status), []⟩) := by
  constructor <;> intro hs <;> simp [createOrder, hk, hstart, hs]

/-- C2 witness: replaying a `Succeeded` record returns its order id with no
error and no actions; replaying a `Started` record fails with the
already-processed error and no actions. -/
theorem createOrder_replay_existing_witness :
    createOrder ⟨.ok (⟨"oX", "u1", 10, .succeeded⟩, false), none, none, none⟩
        "o1" "d1" "u1" 10 "k5" = ⟨"oX", none, []⟩
    ∧ createOrder ⟨.ok (⟨"oY", "u1", 10, .started⟩, false), none, none, none⟩
        "o1" "d1" "u1" 10 "k6" =
      ⟨"oY", some (alreadyProcessedErr SagaStatus.started), []⟩ :=
  ⟨(createOrder_replay_existing
      ⟨.ok (⟨"oX", "u1", 10, .succeeded⟩, false), none, none, none⟩
      ⟨"oX", "u1", 10, .succeeded⟩ "o1" "d1" "u1" "k5" 10 rfl (by simp)).1 rfl,
   (createOrder_replay_existing
      ⟨.ok (⟨"oY", "u1", 10, .started⟩, false), none, none, none⟩
      ⟨"oY", "u1", 10, .started⟩ "o1" "d1" "u1" "k6" 10 rfl (by simp)).2 (by simp)⟩

/-- C3 counterexample: in the assign-failed/refund-failed run the returned
composite error wraps only the assign error; the refund error's sentinel is
not in the unwrap chain, so it is not identifiable by the `errors.Is`-style
kind predicate, contradicting the claim that each of the two causes is. -/
theorem createOrder_composite_refund_not_wrapped :
    (createOrder ⟨.ok (⟨"o1", "u1", 10, .started⟩, true), none,
        some (.base "assign boom"), some (.base "refund boom")⟩
        "o1" "d1" "u1" 10 "k3").err =
      some (compositeAssignRefundErr (.base "assign boom") (.base "refund boom"))
    ∧ goErrIs (compositeAssignRefundErr (.base "assign boom") (.base "refund boom"))
        "assign boom" = true
    ∧ goErrIs (compositeAssignRefundErr (.base "assign boom") (.base "refund boom"))
        "refund boom" = false := by
  refine ⟨rfl, by decide, by decide⟩

/-- C3 amended: when Assign fails and Refund also fails, `CreateOrder`
records status `Failed` and returns the composite error whose unwrap chain is
exactly that of the assign error (so the assign cause is identifiable via
`errors.Is` while the refund cause appears only in the message text); when
Refund succeeds, status `Refunded` is recorded and the assign error itself is
returned. -/
theorem createOrder_compensation_errors (env : OrderEnv)
    (orderID driverID userID key : String) (amount : ℚ) (record : SagaRecord)
    (ae : GoErr) (hk : key ≠ "") (hstart : env.startRes = .ok (record, true))
    (hc : env.chargeRes = none) (ha : env.assignRes = some ae) :
    (∀ re, env.refundRes = some re →
      (createOrder env orderID driverID userID amount key).err =
          some (compositeAssignRefundErr ae re)
      ∧ (createOrder env orderID driverID userID amount key).trace.getLast? =
          some (.updateStatus .failed)
      ∧ (∀ s, goErrIs (compositeAssignRefundErr ae re) s = goErrIs ae s)
      ∧ goErrMsg (compositeAssignRefundErr ae re) =
          "driver assignment failed: " ++ goErrMsg ae ++
            ("; refund failed: " ++ goErrMsg re))
    ∧ (env.refundRes = none →
      (createOrder env orderID driverID userID amount key).err = some ae
      ∧ (createOrder env orderID driverID userID amount key).trace.getLast? =
          some (.updateStatus .refunded)) := by
  constructor
  · intro re hre
    refine ⟨?_, ?_, fun s => rfl, rfl⟩ <;>
      simp [createOrder, hk, hstart, hc, ha, hre]
  · intro hre
    constructor <;> simp [createOrder, hk, hstart, hc, ha, hre]

/-- C3 amended witness: concrete assign and refund failures produce the
composite with status `Failed`; a concrete refund success produces status
`Refunded` with the assign error returned. -/
theorem createOrder_compensation_errors_witness :
    (createOrder ⟨.ok (⟨"o1", "u1", 10, .started⟩, true), none,
        some (.base "assign boom"), some (.base "refund boom")⟩
        "o1" "d1" "u1" 10 "k3").trace.getLast? = some (.updateStatus .failed)
    ∧ goErrMsg (compositeAssignRefundErr (.base "assign boom") (.base "refund boom")) =
        "driver assignment failed: " ++ goErrMsg (GoErr.base "assign boom") ++
          ("; refund failed: " ++ goErrMsg (GoErr.base "refund boom")) :=
  ⟨((createOrder_compensation_errors
      ⟨.ok (⟨"o1", "u1", 10, .started⟩, true), none,
        some (.base "assign boom"), some (.base "refund boom")⟩
      "o1" "d1" "u1" "k3" 10 ⟨"o1", "u1", 10, .started⟩ (.base "assign boom")
      (by simp) rfl rfl rfl).1 (.base "refund boom") rfl).2.1,
   ((createOrder_compensation_errors
      ⟨.ok (⟨"o1", "u1", 10, .started⟩, true), none,
        some (.base "assign boom"), some (.base "refund boom")⟩
      "o1" "d1" "u1" "k3" 10 ⟨"o1", "u1", 10, .started⟩ (.base "assign boom")
      (by simp) rfl rfl rfl).1 (.base "refund boom") rfl).2.2.2⟩

/-- C4 counterexample: with `max_attempts = 3` and a context already
cancelled when `Do` is invoked, the wrapped operation is called zero times,
so the call count is not between 1 and `max_attempts` and attempt 1 does not
run. -/
theorem retryDo_precancelled_zero_calls :
    (retryDo ⟨3, 8, 100, some (fun d => d), some (fun _ _ => none), some (fun _ => true)⟩
        ⟨fun _ => some ctxCanceled, fun _ => some (.base "boom"),
          fun _ _ => none, fun _ => 0⟩).calls = 0
    ∧ ¬ 1 ≤ (retryDo ⟨3, 8, 100, some (fun d => d), some (fun _ _ => none),
          some (fun _ => true)⟩
        ⟨fun _ => some ctxCanceled, fun _ => some (.base "boom"),
          fun _ _ => none, fun _ => 0⟩).calls :=
  ⟨rfl, by decide⟩

/-- C4 amended: provided the context is never cancelled during the run, the
wrapped operation is called between 1 and `max(1, max_attempts)` times;
attempt 1 runs immediately (an immediately succeeding operation yields one
call and no delays); at most `attempts - 1` backoff delays are computed and
the i-th is `jitter(min(max_delay, base_delay * 2^i))` (for a nonnegative
`base_delay`, a positive `max_delay` and shifts below the int64 bound); after
a failed attempt the last error is returned unchanged when the attempt budget
is exhausted or `should_retry` rejects it; and a sleep error is propagated
immediately. -/
theorem retryDo_bounded_calls_and_delays (p : RetryPolicy) (env : RetryEnv)
    (hctx : ∀ k, env.ctxErr k = none)
    (hbase : 0 ≤ p.baseDelay) (hmax : 0 < p.maxDelay)
    (hov : p.baseDelay * 2 ^ ((resolveRetry p env).attempts - 1) < int64Half) :
    (1 ≤ (retryDo p env).calls ∧ (retryDo p env).calls ≤ (resolveRetry p env).attempts)
    ∧ (retryDo p env).delays.length ≤ (resolveRetry p env).attempts - 1
    ∧ (∀ i, i < (retryDo p env).delays.length →
        (retryDo p env).delays[i]? =
          some ((resolveRetry p env).jitter (i + 1)
            (min p.maxDelay (p.baseDelay * 2 ^ i))))
    ∧ (env.fn 1 = none → retryDo p env = ⟨none, 1, []⟩)
    ∧ (∀ fuel attempt e, env.fn attempt = some e →
        (fuel = 0 ∨ (resolveRetry p env).shouldRetry e = false) →
        retryLoop (resolveRetry p env) env (fuel + 1) attempt = ⟨some e, 1, []⟩)
    ∧ (∀ fuel attempt e e2, env.fn attempt = some e →
        (resolveRetry p env).shouldRetry e = true → ¬fuel = 0 →
        0 < retryDelayAt (resolveRetry p env) attempt →
        (resolveRetry p env).sleep attempt (retryDelayAt (resolveRetry p env) attempt) =
          some e2 →
        retryLoop (resolveRetry p env) env (fuel + 1) attempt =
          ⟨some e2, 1, [retryDelayAt (resolveRetry p env) attempt]⟩) := by
  have hpos := resolveRetry_attempts_pos p env
  obtain ⟨s1, s2, s3, s4⟩ :=
    retryLoop_spec (resolveRetry p env) env hctx (resolveRetry p env).attempts 1
  have hdo : retryDo p env =
      retryLoop (resolveRetry p env) env (resolveRetry p env).attempts 1 := rfl
  rw [hdo]
  refine ⟨⟨s3 hpos, s1⟩, s2, ?_, ?_, ?_, ?_⟩
  · intro i hi
    have h4 := s4 i hi
    have h14 : (1 : Nat) + i = i + 1 := Nat.add_comm 1 i
    have hov' : (resolveRetry p env).baseDelay * 2 ^ ((i + 1) - 1) < int64Half := by
      have h2 : (2 : Int) ^ i ≤ 2 ^ ((resolveRetry p env).attempts - 1) := by
        apply pow_le_pow_right₀ one_le_two
        omega
      have h3 := mul_le_mul_of_nonneg_left h2 hbase
      simp only [Nat.add_sub_cancel]
      exact lt_of_le_of_lt h3 hov
    rw [h4, h14, retryDelayAt_formula _ _ hbase hmax hov']
    rfl
  · intro hfn1
    obtain ⟨m, hm⟩ : ∃ m, (resolveRetry p env).attempts = m + 1 :=
      ⟨(resolveRetry p env).attempts - 1, by omega⟩
    show retryLoop (resolveRetry p env) env (resolveRetry p env).attempts 1 = _
    rw [hm]
    simp [retryLoop, hctx 1, hfn1]
  · intro fuel attempt e hfn hstop
    rcases hstop with h0 | hns
    · simp [retryLoop, hctx attempt, hfn, h0]
    · simp [retryLoop, hctx attempt, hfn, hns]
  · intro fuel attempt e e2 hfn hsr hf hd hs
    simp [retryLoop, hctx attempt, hfn, hsr, hf, hd, hs]

/-- C4 amended witness: a concrete policy (3 attempts, base 8, cap 100,
identity jitter) over an operation failing twice then succeeding makes
between 1 and 3 calls. -/
theorem retryDo_bounded_calls_and_delays_witness :
    1 ≤ (retryDo ⟨3, 8, 100, some (fun d => d), some (fun _ _ => none),
          some (fun _ => true)⟩
        ⟨fun _ => none, fun k => if k < 3 then some (.base "boom") else none,
          fun _ _ => none, fun _ => 0⟩).calls
    ∧ (retryDo ⟨3, 8, 100, some (fun d => d), some (fun _ _ => none),
          some (fun _ => true)⟩
        ⟨fun _ => none, fun k => if k < 3 then some (.base "boom") else none,
          fun _ _ => none, fun _ => 0⟩).calls ≤
      (resolveRetry ⟨3, 8, 100, some (fun d => d), some (fun _ _ => none),
          some (fun _ => true)⟩
        ⟨fun _ => none, fun k => if k < 3 then some (.base "boom") else none,
          fun _ _ => none, fun _ => 0⟩).attempts :=
  (retryDo_bounded_calls_and_delays
      ⟨3, 8, 100, some (fun d => d), some (fun _ _ => none), some (fun _ => true)⟩
      ⟨fun _ => none, fun k => if k < 3 then some (.base "boom") else none,
        fun _ _ => none, fun _ => 0⟩
      (fun _ => rfl) (by decide) (by decide) (by decide)).1

/-- C10: a context cancelled before an attempt starts makes `Do` return the
context's error with zero further calls (in particular a pre-cancelled
context yields zero calls in the whole run); `MaxAttempts < 1` is clamped to
one attempt; and `nil` `ShouldRetry`, `Jitter` and `Sleep` fields fall back
to the documented defaults. -/
theorem retryDo_precancel_and_defaults (p : RetryPolicy) (env : RetryEnv) :
    (∀ e, env.ctxErr 1 = some e → retryDo p env = ⟨some e, 0, []⟩)
    ∧ (∀ fuel attempt e, env.ctxErr attempt = some e →
        retryLoop (resolveRetry p env) env (fuel + 1) attempt = ⟨some e, 0, []⟩)
    ∧ (p.maxAttempts < 1 → (resolveRetry p env).attempts = 1)
    ∧ (p.shouldRetry = none → (resolveRetry p env).shouldRetry = defaultShouldRetry)
    ∧ (p.jitter = none →
        (resolveRetry p env).jitter = fun k d => defaultJitterAt (env.rand k) d)
    ∧ (p.sleep = none → (resolveRetry p env).sleep = env.defaultSleep) := by
  refine ⟨?_, ?_, ?_, ?_, ?_, ?_⟩
  · intro e he
    have hpos := resolveRetry_attempts_pos p env
    obtain ⟨m, hm⟩ : ∃ m, (resolveRetry p env).attempts = m + 1 :=
      ⟨(resolveRetry p env).attempts - 1, by omega⟩
    show retryLoop (resolveRetry p env) env (resolveRetry p env).attempts 1 = _
    rw [hm]
    simp [retryLoop, he]
  · intro fuel attempt e he
    simp [retryLoop, he]
  · intro h
    simp [resolveRetry, h]
  · intro h
    simp [resolveRetry, h]
  · intro h
    simp [resolveRetry, h]
  · intro h
    simp [resolveRetry, h]

/-- C10 witness: a concrete pre-cancelled run returns `context.Canceled`
having made zero calls. -/
theorem retryDo_precancel_and_defaults_witness :
    retryDo ⟨3, 8, 100, none, none, none⟩
        ⟨fun _ => some ctxCanceled, fun _ => some (.base "boom"),
          fun _ _ => none, fun _ => 0⟩ =
      ⟨some ctxCanceled, 0, []⟩ :=
  (retryDo_precancel_and_defaults ⟨3, 8, 100, none, none, none⟩
      ⟨fun _ => some ctxCanceled, fun _ => some (.base "boom"),
        fun _ _ => none, fun _ => 0⟩).1 ctxCanceled rfl

/-- A run of consecutive failures from a closed state with a failure budget
exactly matching the list length ends open, stamped with the last entry
time. -/
theorem cbRunFails_trips (cfg : CircuitBreakerConfig) :
    ∀ (l : List (Int × GoErr)) (s : CircuitBreakerState) (hne : l ≠ []),
      s.state = .circuitClosed →
      s.failures + l.length = cfg.maxFails →
      (cbRunFails cfg s l).state = .circuitOpen
      ∧ (cbRunFails cfg s l).openedAt = (l.getLast hne).1 := by
  intro l
  induction l with
  | nil => intro s hne; simp at hne
  | cons x rest ih =>
    intro s hne hs hlen
    cases rest with
    | nil =>
      have hc : cfg.maxFails ≤ s.failures + 1 := by
        simp at hlen
        omega
      simp [cbRunFails, cbExecute, cbEnter, cbExit, hs, hc]
    | cons y rest2 =>
      have hc : ¬cfg.maxFails ≤ s.failures + 1 := by
        simp at hlen
        omega
      have hstep : (cbExecute cfg s x.1 (some x.2)).1 =
          { s with failures := s.failures + 1 } := by
        simp [cbExecute, cbEnter, cbExit, hs, hc]
      have hne2 : y :: rest2 ≠ [] := by simp
      have hrw : cbRunFails cfg s (x :: y :: rest2) =
          cbRunFails cfg { s with failures := s.failures + 1 } (y :: rest2) := by
        simp only [cbRunFails, List.foldl_cons]
        rw [hstep]
      rw [hrw]
      have := ih { s with failures := s.failures + 1 } hne2 (by simp [hs]) (by
        simp at hlen ⊢
        omega)
      rw [List.getLast_cons hne2]
      exact this

/-- C5: after `max_failures` consecutive failures the breaker is open
(stamped with the last failure's entry time) and the next call within
`reset_timeout` returns `CircuitOpen` without invoking the wrapped operation;
once `reset_timeout` has elapsed, entry admits exactly one trial and a
concurrent second entry is rejected with the state unchanged; a successful
trial moves to `Closed` with the failure counter reset; a failed trial moves
back to `Open` stamped with its entry time. -/
theorem circuitBreaker_trip_and_halfopen (cfg : CircuitBreakerConfig) :
    (∀ (o0 : Int) (fl0 : Bool) (l : List (Int × GoErr)) (hne : l ≠ []),
      (l.length : Int) = cfg.maxFails →
      (cbRunFails cfg ⟨.circuitClosed, 0, o0, fl0⟩ l).state = .circuitOpen
      ∧ (cbRunFails cfg ⟨.circuitClosed, 0, o0, fl0⟩ l).openedAt = (l.getLast hne).1)
    ∧ (∀ s now fnErr, s.state = .circuitOpen → now - s.openedAt < cfg.resetAfter →
        cbExecute cfg s now fnErr = (s, false, some errCircuitOpen))
    ∧ (∀ s now, s.state = .circuitOpen → cfg.resetAfter ≤ now - s.openedAt →
        cbEnter cfg s now =
          ({ s with state := .circuitHalfOpen, halfOpenFlight := true }, true)
        ∧ ∀ now2, cbEnter cfg
              { s with state := .circuitHalfOpen, halfOpenFlight := true } now2 =
            ({ s with state := .circuitHalfOpen, halfOpenFlight := true }, false))
    ∧ (∀ s now, s.state = .circuitHalfOpen →
        (cbExit cfg s now none).state = .circuitClosed
        ∧ (cbExit cfg s now none).failures = 0)
    ∧ (∀ s now e, s.state = .circuitHalfOpen →
        (cbExit cfg s now (some e)).state = .circuitOpen
        ∧ (cbExit cfg s now (some e)).openedAt = now
        ∧ (cbExit cfg s now (some e)).failures = 0) := by
  refine ⟨?_, ?_, ?_, ?_, ?_⟩
  · intro o0 fl0 l hne hlen
    exact cbRunFails_trips cfg l ⟨.circuitClosed, 0, o0, fl0⟩ hne rfl (by simpa using hlen)
  · intro s now fnErr hs ht
    simp [cbExecute, cbEnter, hs, ht]
  · intro s now hs ht
    constructor
    · simp [cbEnter, hs, not_lt.mpr ht]
    · intro now2
      simp [cbEnter]
  · intro s now hs
    constructor <;> simp [cbExit, hs]
  · intro s now e hs
    refine ⟨?_, ?_, ?_⟩ <;> simp [cbExit, hs]

/-- C5 witness: with `max_failures = 2` and `reset_timeout = 10`, two
failures at times 0 and 3 open the breaker stamped at 3, and a call at time 5
is rejected as `CircuitOpen` without invoking the operation. -/
theorem circuitBreaker_trip_and_halfopen_witness :
    ((cbRunFails ⟨2, 10⟩ ⟨.circuitClosed, 0, 0, false⟩
        [(0, .base "boom"), (3, .base "boom")]).state = CircuitState.circuitOpen
      ∧ (cbRunFails ⟨2, 10⟩ ⟨.circuitClosed, 0, 0, false⟩
          [(0, .base "boom"), (3, .base "boom")]).openedAt =
        (([(0, .base "boom"), (3, .base "boom")] : List (Int × GoErr)).getLast
          (by simp)).1)
    ∧ cbExecute ⟨2, 10⟩ ⟨.circuitOpen, 0, 3, false⟩ 5 (some (.base "boom")) =
        (⟨.circuitOpen, 0, 3, false⟩, false, some errCircuitOpen) :=
  ⟨(circuitBreaker_trip_and_halfopen ⟨2, 10⟩).1 0 false
      [(0, .base "boom"), (3, .base "boom")] (by simp) (by simp),
   (circuitBreaker_trip_and_halfopen ⟨2, 10⟩).2.1 ⟨.circuitOpen, 0, 3, false⟩ 5
      (some (.base "boom")) rfl (by norm_num)⟩

/-- The multi-store loop invokes the stores at consecutive indices. -/
theorem multiUpdateRun_calls (stores : List LocationStore) (loc : Location) :
    ∀ idx, (multiUpdateRun stores loc idx).1 = List.range' idx stores.length := by
  induction stores with
  | nil => intro idx; simp [multiUpdateRun]
  | cons st rest ih =>
    intro idx
    cases h : st loc <;> simp [multiUpdateRun, h, ih, List.range'_succ]

/-- The multi-store loop collects exactly the failing stores' errors in
order. -/
theorem multiUpdateRun_errs (stores : List LocationStore) (loc : Location) :
    ∀ idx, (multiUpdateRun stores loc idx).2 = stores.filterMap fun st => st loc := by
  induction stores with
  | nil => intro idx; simp [multiUpdateRun]
  | cons st rest ih =>
    intro idx
    cases h : st loc <;> simp [multiUpdateRun, h, ih]

/-- C6: `MultiLocationStore.Update` invokes `Update` on every configured
store in order even when earlier stores fail; it returns nil exactly when
every store succeeded, and otherwise one composite holding the errors of all
failing stores in order, in which every sub-store error stays identifiable
through the `errors.Is`-style predicate on the join. -/
theorem multiUpdate_calls_all_and_joins (stores : List LocationStore) (loc : Location) :
    (multiUpdate stores loc).1 = List.range stores.length
    ∧ ((multiUpdate stores loc).2 = none ↔ ∀ st ∈ stores, st loc = none)
    ∧ (∀ errs, (multiUpdate stores loc).2 = some errs →
        errs = (stores.filterMap fun st => st loc)
        ∧ ∀ e ∈ errs, ∀ s, goErrIs e s = true → goJoinIs errs s = true) := by
  refine ⟨?_, ?_, ?_⟩
  · show (multiUpdateRun stores loc 0).1 = _
    rw [multiUpdateRun_calls stores loc 0, List.range_eq_range']
  · show errorsJoin (multiUpdateRun stores loc 0).2 = none ↔ _
    rw [multiUpdateRun_errs]
    unfold errorsJoin
    constructor
    · intro h
      split at h
      · next hnil => exact List.filterMap_eq_nil.mp hnil
      · exact absurd h (by simp)
    · intro h
      rw [if_pos (List.filterMap_eq_nil.mpr h)]
  · intro errs h
    replace h : errorsJoin (multiUpdateRun stores loc 0).2 = some errs := h
    rw [multiUpdateRun_errs] at h
    unfold errorsJoin at h
    split at h
    · exact absurd h (by simp)
    · have heq : errs = stores.filterMap fun st => st loc := by
        injection h with h2
        exact h2.symm
      refine ⟨heq, ?_⟩
      intro e he s hs
      unfold goJoinIs
      exact List.any_eq_true.mpr ⟨e, he, hs⟩

/-- C6 witness: with a failing history store followed by a succeeding hot
store, the composite holds exactly the history error, still identifiable. -/
theorem multiUpdate_calls_all_and_joins_witness :
    ([GoErr.base "hist down"] =
      (([fun _ => some (GoErr.base "hist down"), fun _ => none] :
        List LocationStore).filterMap fun st => st ⟨"c1", 1, 2, 0⟩))
    ∧ ∀ e ∈ [GoErr.base "hist down"], ∀ s, goErrIs e s = true →
        goJoinIs [GoErr.base "hist down"] s = true :=
  (multiUpdate_calls_all_and_joins
      [fun _ => some (.base "hist down"), fun _ => none] ⟨"c1", 1, 2, 0⟩).2.2
    [.base "hist down"] rfl

/-- C9: `NewLocation` admits an input exactly when the driver id is
non-empty, the latitude is in [-90, 90] and the longitude is in [-180, 180];
on success it stores the given timestamp unchanged (so every timestamp,
including the zero instant, is accepted and no timestamp-related error
exists); which error it returns is independent of the timestamp; and the
streaming adapter rejects with the invalid-timestamp error exactly when a
protobuf timestamp is present on the message and invalid. -/
theorem newLocation_validation_scope (driverID : String) (lat long : ℚ) (ts ts2 : Int)
    (msg : LocationMsg) (ing : Location → Option GoErr) :
    ((∃ loc, NewLocation driverID lat long ts = .ok loc) ↔
      (driverID ≠ "" ∧ -90 ≤ lat ∧ lat ≤ 90 ∧ -180 ≤ long ∧ long ≤ 180))
    ∧ (NewLocation driverID lat long ts = .ok ⟨driverID, lat, long, ts⟩ ∨
        ∃ e, NewLocation driverID lat long ts = .error e)
    ∧ (∀ e, NewLocation driverID lat long ts = .error e ↔
        NewLocation driverID lat long ts2 = .error e)
    ∧ (handleLocationMsg msg ing = .error .invalidTimestamp ↔
        ∃ pb, msg.timestamp = some pb ∧ pb.valid = false) := by
  refine ⟨?_, ?_, ?_, ?_⟩
  · constructor
    · rintro ⟨loc, hok⟩
      unfold NewLocation at hok
      split_ifs at hok with h1 h2 h3
      push_neg at h2 h3
      exact ⟨h1, h2.1, h2.2, h3.1, h3.2⟩
    · rintro ⟨hne, hla, hlb, hlc, hld⟩
      refine ⟨⟨driverID, lat, long, ts⟩, ?_⟩
      unfold NewLocation
      rw [if_neg hne, if_neg (by push_neg; exact ⟨hla, hlb⟩),
        if_neg (by push_neg; exact ⟨hlc, hld⟩)]
  · unfold NewLocation
    split_ifs <;> simp
  · intro e
    unfold NewLocation
    split_ifs <;> simp
  · constructor
    · intro h
      unfold handleLocationMsg at h
      rcases hts : msg.timestamp with _ | pb <;> simp only [hts] at h
      · rcases hnl : NewLocation msg.driverId msg.latitude msg.longitude 0 with e | loc <;>
          simp only [hnl] at h
        · exact absurd h (by simp)
        · rcases hing : ing loc with _ | e <;> simp only [hing] at h
          · exact absurd h (by simp)
          · exact absurd h (by simp)
      · by_cases hv : pb.valid = false
        · exact ⟨pb, rfl, hv⟩
        · rw [if_neg hv] at h
          rcases hnl : NewLocation msg.driverId msg.latitude msg.longitude pb.t
              with e | loc <;> simp only [hnl] at h
          · exact absurd h (by simp)
          · rcases hing : ing loc with _ | e <;> simp only [hing] at h
            · exact absurd h (by simp)
            · exact absurd h (by simp)
    · rintro ⟨pb, hts, hv⟩
      simp [handleLocationMsg, hts, hv]

/-- C9 witness: a valid in-range location with timestamp 5 is admitted, and
a message carrying an invalid protobuf timestamp is rejected with the
invalid-timestamp error. -/
theorem newLocation_validation_scope_witness :
    (∃ loc, NewLocation "c1" 12 56 5 = .ok loc)
    ∧ handleLocationMsg ⟨"c1", 1, 2, some ⟨7, false⟩⟩ (fun _ => none) =
        .error .invalidTimestamp :=
  ⟨(newLocation_validation_scope "c1" 12 56 5 5 ⟨"c1", 1, 2, none⟩ (fun _ => none)).1.mpr
      ⟨by decide, by decide, by decide, by decide, by decide⟩,
   (newLocation_validation_scope "c1" 1 2 0 0 ⟨"c1", 1, 2, some ⟨7, false⟩⟩
      (fun _ => none)).2.2.2.mpr ⟨⟨7, false⟩, rfl, rfl⟩⟩

/-- C7 counterexample: charge order-1, refund it successfully, then refund
the same `(order_id, amount)` again: the second refund returns
`ErrAlreadyRefunded`, not success, so `Refund` is not idempotent in its
return value. -/
theorem pgRefund_not_idempotent :
    (pgCharge (fun _ => none) "order-1" 9 10).2 = none
    ∧ (pgRefund (pgCharge (fun _ => none) "order-1" 9 10).1 "order-1" 9 20).2 = none
    ∧ (pgRefund (pgRefund (pgCharge (fun _ => none) "order-1" 9 10).1
        "order-1" 9 20).1 "order-1" 9 30).2 = some errAlreadyRefunded :=
  ⟨rfl, rfl, rfl⟩

/-- C7 amended: after a successful `Refund`, a second `Refund` of the same
order returns `ErrAlreadyRefunded` and leaves the table unchanged (so the
operation is idempotent in state, though not in its return value); and
`refunded_at` is monotonic — once set, neither `Charge` nor `Refund` unsets
or changes any row's `refunded_at`. -/
theorem pgRefund_already_refunded_and_monotonic (db : PaymentsTable)
    (orderID q : String) (amount a2 : ℚ) (now n2 t : Int) (row : PaymentRow) :
    ((pgRefund db orderID amount now).2 = none →
      pgRefund (pgRefund db orderID amount now).1 orderID a2 n2 =
        ((pgRefund db orderID amount now).1, some errAlreadyRefunded))
    ∧ (db q = some row → row.refundedAt = some t →
        (pgCharge db orderID amount now).1 q = some row
        ∧ (pgRefund db orderID amount now).1 q = some row) := by
  constructor
  · intro h
    by_cases h0 : orderID = ""
    · simp [pgRefund, h0] at h
    · rcases hrow : db orderID with _ | row0
      · simp [pgRefund, h0, hrow] at h
      · rcases hr : row0.refundedAt with _ | t0
        · have hdb1 : (pgRefund db orderID amount now).1 =
              fun id => if id = orderID then
                some { row0 with refundAmount := some amount, refundedAt := some now }
              else db id := by
            simp [pgRefund, h0, hrow, hr]
          rw [hdb1]
          simp [pgRefund, h0]
        · simp [pgRefund, h0, hrow, hr] at h
  · intro hq ht
    constructor
    · by_cases h0 : orderID = ""
      · simp [pgCharge, h0, hq]
      · rcases hrow : db orderID with _ | row0
        · have hne : q ≠ orderID := by
            intro he
            rw [he, hrow] at hq
            exact absurd hq (by simp)
          simp [pgCharge, h0, hrow, hne, hq]
        · simp [pgCharge, h0, hrow, hq]
    · by_cases h0 : orderID = ""
      · simp [pgRefund, h0, hq]
      · rcases hrow : db orderID with _ | row0
        · simp [pgRefund, h0, hrow, hq]
        · rcases hr : row0.refundedAt with _ | t0
          · have hne : q ≠ orderID := by
              intro he
              rw [he, hrow] at hq
              injection hq with h2
              rw [h2] at hr
              rw [hr] at ht
              exact absurd ht (by simp)
            simp [pgRefund, h0, hrow, hr, hne, hq]
          · simp [pgRefund, h0, hrow, hr, hq]

/-- C7 amended witness: for a concrete charged order, refunding then
refunding again returns `ErrAlreadyRefunded` with the table unchanged. -/
theorem pgRefund_already_refunded_and_monotonic_witness :
    pgRefund (pgRefund
        (fun id => if id = "order-1" then some ⟨9, 10, none, none⟩ else none)
        "order-1" 9 20).1 "order-1" 9 30 =
      ((pgRefund (fun id => if id = "order-1" then some ⟨9, 10, none, none⟩ else none)
        "order-1" 9 20).1, some errAlreadyRefunded) :=
  (pgRefund_already_refunded_and_monotonic
      (fun id => if id = "order-1" then some ⟨9, 10, none, none⟩ else none)
      "order-1" "order-1" 9 9 20 30 0 ⟨9, 10, none, none⟩).1 rfl

/-- C8 counterexample: in the degenerate configuration `rate = 0` with a
cancelled context, the §4.3.3 `RateLimiter.Wait` fails with the context's
error while the ingress `grpcRateLimiter.Wait` admits the caller with nil —
the two do not admit callers identically. -/
theorem grpcLimiter_degenerate_differs :
    rateLimiterWait 0 5 ⟨fun _ => 0, fun _ => some ctxCanceled, fun _ _ => none⟩
        ⟨5, 0⟩ 3 = (some (some ctxCanceled), ⟨5, 0⟩)
    ∧ grpcLimiterWait 0 5 ⟨fun _ => 0, fun _ => some ctxCanceled, fun _ _ => none⟩
        ⟨5, 0⟩ 3 = (some none, ⟨5, 0⟩, []) :=
  ⟨rfl, rfl⟩

/-- C8 amended: for every non-degenerate configuration (`rate > 0` and
`burst > 0`), clock, sleep outcome, context and iteration bound, the ingress
limiter and the §4.3.3 limiter admit callers identically (same result, same
token-bucket state) — they differ only in degenerate configurations under a
cancelled context, where the ingress limiter admits unconditionally; every
wait the ingress limiter records is positive, and replaying the recorded
waits into the metrics adds their count to `rate_limit_waits` and their sum
to `rate_limit_wait`. -/
theorem grpcLimiter_refines_rateLimiter (rate burst : Int) (env : RLEnv)
    (hrate : 0 < rate) (hburst : 0 < burst) :
    (∀ fuel st i,
      (grpcWaitLoop rate burst env fuel st i).1 = (rlWaitLoop rate burst env fuel st i).1
      ∧ (grpcWaitLoop rate burst env fuel st i).2.1 =
        (rlWaitLoop rate burst env fuel st i).2)
    ∧ (∀ fuel st,
      (grpcLimiterWait rate burst env st fuel).1 =
        (rateLimiterWait rate burst env st fuel).1
      ∧ (grpcLimiterWait rate burst env st fuel).2.1 =
        (rateLimiterWait rate burst env st fuel).2)
    ∧ (∀ fuel st i, ∀ w ∈ (grpcWaitLoop rate burst env fuel st i).2.2, 0 < w)
    ∧ (∀ (m : RateMetrics) (ws : List Int), (∀ w ∈ ws, 0 < w) →
        (ws.foldl addRateLimitWait m).rateLimitWaits = m.rateLimitWaits + ws.length
        ∧ (ws.foldl addRateLimitWait m).rateLimitWait = m.rateLimitWait + ws.sum) := by
  have hnd : ¬(rate ≤ 0 ∨ burst ≤ 0) := by
    push_neg
    exact ⟨hrate, hburst⟩
  have hloop : ∀ fuel st i,
      (grpcWaitLoop rate burst env fuel st i).1 = (rlWaitLoop rate burst env fuel st i).1
      ∧ (grpcWaitLoop rate burst env fuel st i).2.1 =
        (rlWaitLoop rate burst env fuel st i).2 := by
    intro fuel
    induction fuel with
    | zero => intro st i; simp [grpcWaitLoop, rlWaitLoop]
    | succ fuel ih =>
      intro st i
      cases hc : env.ctxErrAt i with
      | some e => simp [grpcWaitLoop, rlWaitLoop, hc]
      | none =>
        by_cases ht : 0 < (rlRefill rate burst st (env.nowAt i)).tokens
        · simp [grpcWaitLoop, rlWaitLoop, hc, ht]
        · by_cases hw :
              rate - (env.nowAt i - (rlRefill rate burst st (env.nowAt i)).last) ≤ 0
          · simpa [grpcWaitLoop, rlWaitLoop, hc, ht, hw] using
              ih (rlRefill rate burst st (env.nowAt i)) (i + 1)
          · cases hs : env.sleepAt i
                (rate - (env.nowAt i - (rlRefill rate burst st (env.nowAt i)).last)) with
            | some e => simp [grpcWaitLoop, rlWaitLoop, hc, ht, hw, hs]
            | none =>
              simpa [grpcWaitLoop, rlWaitLoop, hc, ht, hw, hs] using
                ih (rlRefill rate burst st (env.nowAt i)) (i + 1)
  refine ⟨hloop, ?_, ?_, ?_⟩
  · intro fuel st
    constructor
    · show (grpcLimiterWait rate burst env st fuel).1 = _
      unfold grpcLimiterWait rateLimiterWait
      rw [if_neg hnd, if_neg hnd]
      exact (hloop fuel st 0).1
    · unfold grpcLimiterWait rateLimiterWait
      rw [if_neg hnd, if_neg hnd]
      exact (hloop fuel st 0).2
  · intro fuel
    induction fuel with
    | zero => intro st i w hwm; simp [grpcWaitLoop] at hwm
    | succ fuel ih =>
      intro st i w hwm
      cases hc : env.ctxErrAt i with
      | some e => simp [grpcWaitLoop, hc] at hwm
      | none =>
        by_cases ht : 0 < (rlRefill rate burst st (env.nowAt i)).tokens
        · simp [grpcWaitLoop, hc, ht] at hwm
        · by_cases hw :
              rate - (env.nowAt i - (rlRefill rate burst st (env.nowAt i)).last) ≤ 0
          · rw [show grpcWaitLoop rate burst env (fuel + 1) st i =
                grpcWaitLoop rate burst env fuel
                  (rlRefill rate burst st (env.nowAt i)) (i + 1) from by
              simp [grpcWaitLoop, hc, ht, hw]] at hwm
            exact ih _ _ _ hwm
          · cases hs : env.sleepAt i
                (rate - (env.nowAt i - (rlRefill rate burst st (env.nowAt i)).last)) with
            | some e =>
              simp [grpcWaitLoop, hc, ht, hw, hs] at hwm
              omega
            | none =>
              simp [grpcWaitLoop, hc, ht, hw, hs] at hwm
              rcases hwm with h1 | h2
              · omega
              · exact ih _ _ _ h2
  · intro m ws
    induction ws generalizing m with
    | nil => intro h; simp
    | cons w rest ih =>
      intro h
      have hw : 0 < w := h w (by simp)
      have hrest : ∀ x ∈ rest, 0 < x := fun x hx => h x (by simp [hx])
      have hstep : addRateLimitWait m w = ⟨m.rateLimitWaits + 1, m.rateLimitWait + w⟩ := by
        simp [addRateLimitWait]
        omega
      obtain ⟨ha, hb⟩ := ih ⟨m.rateLimitWaits + 1, m.rateLimitWait + w⟩ hrest
      constructor
      · simp only [List.foldl_cons, hstep, ha, List.length_cons]
        push_cast
        ring
      · simp only [List.foldl_cons, hstep, hb, List.sum_cons]
        ring

/-- C8 amended witness: at rate 1 and burst 1, a concrete run of the two
limiters returns the same admission result and the same bucket state. -/
theorem grpcLimiter_refines_rateLimiter_witness :
    (grpcLimiterWait 1 1 ⟨fun _ => 0, fun _ => none, fun _ _ => none⟩ ⟨1, 0⟩ 1).1 =
      (rateLimiterWait 1 1 ⟨fun _ => 0, fun _ => none, fun _ _ => none⟩ ⟨1, 0⟩ 1).1
    ∧ (grpcLimiterWait 1 1 ⟨fun _ => 0, fun _ => none, fun _ _ => none⟩ ⟨1, 0⟩ 1).2.1 =
      (rateLimiterWait 1 1 ⟨fun _ => 0, fun _ => none, fun _ _ => none⟩ ⟨1, 0⟩ 1).2 :=
  (grpcLimiter_refines_rateLimiter 1 1 ⟨fun _ => 0, fun _ => none, fun _ _ => none⟩
      (by decide) (by decide)).2.1 1 ⟨1, 0⟩
